import Mathlib

/-!
Shallow embedding of the Nordstrom kinesis-handler repository.

Embedded source:
- lib/kinesisHandler.js (src/unnamed/part_000): the `KinesisHandler`
  constructor (the concurrent batch driver) and the
  `KinesisSynchronousHandler` constructor (the ordered batch driver),
  together with their shared registration and dispatch logic.
- src/lib/kinesis-handler.js: the legacy single-constructor variant; only
  its `registerSchemaMethodPair` (lines 91-95) differs in a way any claim
  depends on, so only that routine is embedded separately.

External collaborators are black boxes, following the spec's scope: the
ajv validation engine's verdicts are carried as Boolean fields on the
embedded events; the base64/JSON decode outcome of a record's payload is
carried as an inductive `Payload` on the record; a registered handler's
behaviour on a given event (whether it completes synchronously and with
which error value) is carried as a `HandlerSpec` on the record.  Driver
executions are deterministic state machines producing a trace of
per-record completions, handler invocations and batch-callback calls; the
arrival order of asynchronous completions in the concurrent driver is an
explicit input, constrained in theorems to be a permutation of the
dispatched completions.
-/

namespace KinesisHandlerModel

/-- MODULE constant of lib/kinesisHandler.js (constants.MODULE, line 7). -/
def MODULE : String := "lib/kinesisHandler.js"

/-- constants.METHOD_PROCESS_EVENT (line 9). -/
def METHOD_PROCESS_EVENT : String := "processEvent"

/-- constants.METHOD_PROCESS_KINESIS_EVENT (line 10). -/
def METHOD_PROCESS_KINESIS_EVENT : String := "processKinesisEvent"

/-- constants.BAD_MSG (line 12). -/
def BAD_MSG : String := "bad msg:"

/-- Marker that every dispatcher-generated bad-message string begins with:
the code builds those strings as template literals starting
`METHOD_PROCESS_EVENT BAD_MSG`. -/
def badMarker : String := METHOD_PROCESS_EVENT ++ " " ++ BAD_MSG

/-- Module tag prepended by the drivers when re-wrapping an error:
the template literal `MODULE for module ` (with its trailing space). -/
def modulePre (module : String) : String := MODULE ++ " for " ++ module ++ " "

/-- Boolean list-prefix test over characters (JS String.prototype.indexOf
support; executable). -/
def isPrefixL : List Char → List Char → Bool
  | [], _ => true
  | _ :: _, [] => false
  | a :: as, b :: bs => a == b && isPrefixL as bs

/-- Boolean substring test over characters: the needle occurs at some
position of the haystack. -/
def containsL (needle : List Char) : List Char → Bool
  | [] => isPrefixL needle []
  | c :: rest => isPrefixL needle (c :: rest) || containsL needle rest

/-- JS `hay.indexOf(needle) !== -1` as a Boolean on strings. -/
def strContains (hay needle : String) : Bool := containsL needle.data hay.data

/-- Self-descriptive header of a schema document (`schema.self`): the
vendor, name and version read by makeSchemaId. -/
structure SchemaDoc where
  vendor : String
  name : String
  version : String
deriving DecidableEq, Repr

/-- makeSchemaId (lib/kinesisHandler.js line 15, identical in the legacy
file): the three-part schema identity. -/
def makeSchemaId (schema : SchemaDoc) : String :=
  schema.vendor ++ "/" ++ schema.name ++ "/" ++ schema.version

/-- Shape of a JS value passed as the method argument of registration:
either not a function at all, or a function together with its parameter
count (JS `method.length`). -/
inductive JsMethod
  | notAFunction
  | func (arity : Nat)
deriving DecidableEq, Repr

/-- Mutable per-instance registration state: the schemas added to the ajv
validator, and the schemaMethodPairs map (keyed by schema identity). -/
structure RegState where
  ajvSchemas : List String
  schemaMethodPairs : List (String × JsMethod)
deriving DecidableEq, Repr

/-- JS check `typeof method === 'function' && method.length === 2`
(the negation of the guard at lib/kinesisHandler.js line 95). -/
def isTwoParamFunction : JsMethod → Bool
  | .func 2 => true
  | _ => false

/-- registerSchemaMethodPair of lib/kinesisHandler.js (lines 91-99 for
KinesisHandler; lines 228-236 are the textually identical copy in
KinesisSynchronousHandler): first `ajv.addSchema(schema, schemaId)`, then
the arity guard (throwing when it fails, i.e. returning `some` error
text), then the store into schemaMethodPairs.  The returned state is the
state after the call, including the mutation performed before a throw. -/
def registerSchemaMethodPair (st : RegState) (schema : SchemaDoc) (method : JsMethod) :
    RegState × Option String :=
  let schemaId := makeSchemaId schema
  let st1 : RegState := { st with ajvSchemas := st.ajvSchemas ++ [schemaId] }
  if isTwoParamFunction method then
    ({ st1 with schemaMethodPairs := st1.schemaMethodPairs ++ [(schemaId, method)] }, none)
  else
    (st1, some "Method must be a function of the form (event, callback) => \x7b . . . \x7d")

/-- registerSchemaMethodPair of the legacy src/lib/kinesis-handler.js
(lines 91-95): adds the schema and stores the method with no arity check
and no failure path. -/
def legacyRegisterSchemaMethodPair (st : RegState) (schema : SchemaDoc) (method : JsMethod) :
    RegState :=
  let schemaId := makeSchemaId schema
  { st with
    ajvSchemas := st.ajvSchemas ++ [schemaId],
    schemaMethodPairs := st.schemaMethodPairs ++ [(schemaId, method)] }

/-- Nested `event.data` object of a decoded envelope event.  `schema` is
`event.data.schema` (`none` models an absent field); `valid` is the
black-box ajv verdict `ajv.validate(event.data.schema, event.data)`, and
`valErrText` the `ajv.errorsText()` that accompanies a failed verdict. -/
structure EventData where
  schema : Option String
  valid : Bool
  valErrText : String
deriving DecidableEq, Repr

/-- Decoded envelope event.  `schema` is `event.schema` (`none` models an
absent or falsy field — the code treats both identically); `envValid` is
the black-box ajv verdict `ajv.validate(eventSchemaId, event)` with
`envErrText` its error text; `data` is the `event.data` field, `none`
when absent. -/
structure Event where
  schema : Option String
  envValid : Bool
  envErrText : String
  data : Option EventData
deriving DecidableEq, Repr

/-- Outcome of the black-box decode of one record's `kinesis.data`
payload (`new Buffer(data, 'base64').toString()` followed by
`JSON.parse`): the pipeline throws, or yields a falsy value (JS
`null`, `0`, `false`, the empty string — all fail the `if (parsed)`
guard), or yields a (truthy) event object. -/
inductive Payload
  | throwsParse (exText : String)
  | falsyParse
  | eventParse (e : Event)
deriving DecidableEq, Repr

/-- Black-box behaviour of the registered handler on this record's event,
should the dispatcher invoke it: whether the completion callback is
called synchronously (inside the dispatch) or asynchronously (on a later
tick), and with which error value (`none` = completed with no error).
Handlers are trusted to complete exactly once (spec section 7); records
whose handler is never invoked ignore this field. -/
structure HandlerSpec where
  sync : Bool
  err : Option String
deriving DecidableEq, Repr

/-- One record of a Kinesis batch.  `kinesis` is `none` when the record
has no (truthy) `record.kinesis && record.kinesis.data`; otherwise it
carries the decode outcome of the payload. -/
structure KRecord where
  kinesis : Option Payload
  handler : HandlerSpec
deriving DecidableEq, Repr

/-- Argument of `processKinesisEvent`: either a value failing the batch
shape check `kinesisEvent && kinesisEvent.Records &&
Array.isArray(kinesisEvent.Records)`, or a well-formed record array. -/
inductive KinesisEvent
  | invalidShape
  | valid (records : List KRecord)
deriving DecidableEq, Repr

/-- Per-instance configuration of a handler instance: the envelope schema
identity, the module label, the keys of schemaMethodPairs at dispatch
time, and the optional transformer. -/
structure Config where
  eventSchemaId : String
  module : String
  pairs : List String
  transfomer : Option (Event → KRecord → Event)

/-- Applies `if (this.transfomer) parsed = this.transfomer(parsed, record)`
(lib/kinesisHandler.js lines 176-178). -/
def effEvent (cfg : Config) (r : KRecord) (e : Event) : Event :=
  match cfg.transfomer with
  | some f => f e r
  | none => e

/-- Immediate result of the validating dispatcher on one event: either the
dispatcher itself calls the completion (with a bad-message string, or with
no error for an unsupported schema), or it invokes the handler registered
for the given identity. -/
inductive DispatchResult
  | completeNow (err : Option String)
  | invokeHandler (schemaId : String)
deriving DecidableEq, Repr

/-- Exception text of the TypeError raised by reading
`event.data.schema` when `event.data` is undefined. -/
def typeErrorDataMsg : String :=
  "TypeError: Cannot read property schema of undefined"

/-- processEvent of lib/kinesisHandler.js (lines 107-124; lines 245-271
of KinesisSynchronousHandler duplicate the same decision structure, with
each branch deferred through the iterator instead of calling `complete`
directly).  The argument is `none` when the dispatched value is falsy.
Returns `Except.error` when the JS code would throw: the handler-lookup
condition reads `event.data.schema` unconditionally, which raises a
TypeError when `event.data` is absent. -/
def processEvent (cfg : Config) (event : Option Event) : Except String DispatchResult :=
  match event with
  | none =>
    .ok (.completeNow (some (badMarker ++ " event did not specify a schema.")))
  | some e =>
    match e.schema with
    | none =>
      .ok (.completeNow (some (badMarker ++ " event did not specify a schema.")))
    | some s =>
      if s != cfg.eventSchemaId then
        .ok (.completeNow (some (badMarker ++ " event did not have proper schema.  Observed: "
          ++ s ++ " expected: " ++ cfg.eventSchemaId)))
      else if !e.envValid then
        .ok (.completeNow (some (badMarker ++ " could not validate event to "
          ++ cfg.eventSchemaId ++ " schema.  Errors: " ++ e.envErrText)))
      else
        match e.data with
        | none => .error typeErrorDataMsg
        | some d =>
          match d.schema with
          | some ds =>
            if cfg.pairs.contains ds then
              if !d.valid then
                .ok (.completeNow (some (badMarker ++ " could not validate event to "
                  ++ ds ++ " schema. Errors: " ++ d.valErrText)))
              else
                .ok (.invokeHandler ds)
            else
              .ok (.completeNow none)
          | none =>
            .ok (.completeNow none)

/-- Result of a call to the batch-level callback: `callback()` with no
argument, `callback(string)` with an error string, or `callback(ex)` with
a caught exception object whose message is recorded. -/
inductive CallbackCall
  | success
  | errStr (s : String)
  | exn (s : String)
deriving DecidableEq, Repr

/-- Observable events of a driver execution, in order: a per-record
completion was counted for record `i`, the handler registered for
`schemaId` was invoked on record `i`, or the batch-level callback was
called. -/
inductive TraceEv
  | completed (i : Nat)
  | invokedHandler (i : Nat) (schemaId : String)
  | calledBack (c : CallbackCall)
deriving DecidableEq, Repr

/-- Batch-callback calls recorded in a trace, in order. -/
def cbOf (tr : List TraceEv) : List CallbackCall :=
  tr.filterMap fun ev =>
    match ev with
    | .calledBack c => some c
    | _ => none

/-- Record indices whose handler was invoked, in invocation order. -/
def invokedOf (tr : List TraceEv) : List Nat :=
  tr.filterMap fun ev =>
    match ev with
    | .invokedHandler i _ => some i
    | _ => none

/-- Record indices whose completion was counted, in completion order. -/
def completionsOf (tr : List TraceEv) : List Nat :=
  tr.filterMap fun ev =>
    match ev with
    | .completed i => some i
    | _ => none

/-- State of one concurrent-driver execution
(KinesisHandler.processKinesisEvent, lib/kinesisHandler.js lines
132-192): the `successes` counter, the dispatched-but-not-yet-completed
handler completions (record index and eventual error value, in dispatch
order), the observable trace, an exception raised to the runtime from an
asynchronous completion (which crashes the process), and whether the
record loop was aborted by an exception caught by the surrounding try. -/
structure ConcState where
  successes : Nat
  pending : List (Nat × Option String)
  trace : List TraceEv
  uncaught : Option String
  halted : Bool
deriving DecidableEq, Repr

/-- Outcome of one call of the shared `complete` closure
(lib/kinesisHandler.js lines 141-160): the completion was counted (new
counter value, and whether it made the counter reach the batch size, in
which case `callback()` fires), or the re-wrapped message lacked the
module-tagged bad-message marker and an Error was thrown. -/
inductive CompleteOutcome
  | counted (newSuccesses : Nat) (batchDone : Bool)
  | fatalRaise (msg : String)
deriving DecidableEq, Repr

/-- One call of the `complete` closure with batch size `n` and current
counter `successes`: a truthy error is re-wrapped as
`MODULE for module err` and tested for the substring
`MODULE for module METHOD_PROCESS_EVENT BAD_MSG` — present means a
non-fatal bad message (logged and counted), absent means
`throw new Error(msg)`.  No error counts directly.  After counting, the
counter is compared with `kinesisEvent.Records.length`. -/
def completeStep (cfg : Config) (n successes : Nat) (err : Option String) : CompleteOutcome :=
  match err with
  | some e =>
    let msg := modulePre cfg.module ++ e
    if strContains msg (modulePre cfg.module ++ badMarker) then
      .counted (successes + 1) (successes + 1 == n)
    else
      .fatalRaise msg
  | none => .counted (successes + 1) (successes + 1 == n)

/-- Applies a synchronous (inside the record loop) call of `complete` to
the driver state: a fatal throw there is caught by the surrounding try,
which calls `callback(ex)` and ends the loop. -/
def inlineComplete (cfg : Config) (n i : Nat) (st : ConcState) (err : Option String) :
    ConcState :=
  match completeStep cfg n st.successes err with
  | .counted s done =>
    { st with
      successes := s,
      trace := st.trace ++ [.completed i]
        ++ (if done then [.calledBack .success] else []) }
  | .fatalRaise msg =>
    { st with trace := st.trace ++ [.calledBack (.exn msg)], halted := true }

/-- Processing of record `i` inside the concurrent driver's for-loop
(lib/kinesisHandler.js lines 161-184): a record without
`kinesis`/`kinesis.data` completes inline with the missing-data bad
message; a payload whose decode/parse throws completes inline with the
decode-failure bad message and is then skipped by `if (parsed)`; a falsy
parse is skipped with no completion at all; otherwise the (optionally
transformed) event goes to processEvent, whose own completion is inline,
whose TypeError is caught by the surrounding try (callback(ex), loop
ends), and whose handler invocation completes inline when the handler is
synchronous or is appended to the pending completions otherwise. -/
def concRecordStep (cfg : Config) (n : Nat) (st : ConcState) (i : Nat) (r : KRecord) :
    ConcState :=
  if st.halted then st
  else
    match r.kinesis with
    | none =>
      inlineComplete cfg n i st (some (badMarker ++ " record missing Kinesis data."))
    | some (.throwsParse ex) =>
      inlineComplete cfg n i st
        (some (badMarker ++ " failed to decode and parse the data - " ++ ex ++ "."))
    | some .falsyParse => st
    | some (.eventParse e) =>
      match processEvent cfg (some (effEvent cfg r e)) with
      | .error tyMsg =>
        { st with trace := st.trace ++ [.calledBack (.exn tyMsg)], halted := true }
      | .ok (.completeNow err) => inlineComplete cfg n i st err
      | .ok (.invokeHandler ds) =>
        let st1 := { st with trace := st.trace ++ [.invokedHandler i ds] }
        if r.handler.sync then inlineComplete cfg n i st1 r.handler.err
        else { st1 with pending := st1.pending ++ [(i, r.handler.err)] }

/-- The concurrent driver's record loop, with `i` the index of the first
record of `records` within the batch of size `n`. -/
def concLoop (cfg : Config) (n : Nat) : Nat → List KRecord → ConcState → ConcState
  | _, [], st => st
  | i, r :: rest, st => concLoop cfg n (i + 1) rest (concRecordStep cfg n st i r)

/-- Delivery of the asynchronous handler completions after the record loop
returned, in the order the runtime fires them.  Each one runs the
`complete` closure; a fatal throw there happens inside an asynchronous
callback with no surrounding try, so it is raised to the runtime
(crashing the process — later completions never run). -/
def concDrain (cfg : Config) (n : Nat) : ConcState → List (Nat × Option String) → ConcState
  | st, [] => st
  | st, (i, err) :: rest =>
    match completeStep cfg n st.successes err with
    | .counted s done =>
      concDrain cfg n
        { st with
          successes := s,
          trace := st.trace ++ [.completed i]
            ++ (if done then [.calledBack .success] else []) } rest
    | .fatalRaise msg => { st with uncaught := some msg }

/-- Initial driver state. -/
def concInit : ConcState :=
  { successes := 0, pending := [], trace := [], uncaught := none, halted := false }

/-- KinesisHandler.processKinesisEvent (lib/kinesisHandler.js lines
132-192): a batch failing the shape check calls the callback once with
the no-records message; otherwise the record loop runs with the shared
counter, and afterwards the asynchronous completions fire in the order
given by `arrivals` (constrained in theorems to be a permutation of the
completions the loop left pending). -/
def processKinesisEvent (cfg : Config) (kev : KinesisEvent)
    (arrivals : List (Nat × Option String)) : ConcState :=
  match kev with
  | .invalidShape =>
    { concInit with
      trace := [.calledBack (.errStr
        (modulePre cfg.module ++ METHOD_PROCESS_KINESIS_EVENT ++ " - no records received."))] }
  | .valid records =>
    concDrain cfg records.length (concLoop cfg records.length 0 records concInit) arrivals

/-- State of one ordered-driver execution (KinesisSynchronousHandler,
lib/kinesisHandler.js lines 242-332): the accumulated badMessages list of
the generator, the observable trace, an exception raised to the runtime,
the indices of records whose payload decode was attempted, whether the
generator is still inside its first synchronous segment (before the first
yield suspension — exceptions there are caught by processKinesisEvent's
try and reported through the callback; later ones are uncaught), and
whether the run has stopped (the generator will never be resumed). -/
structure OrdState where
  badMessages : List String
  trace : List TraceEv
  uncaught : Option String
  decoded : List Nat
  firstSeg : Bool
  halted : Bool
deriving DecidableEq, Repr

/-- Processing of record `i` by the generator
(KinesisSynchronousHandler.recordGenerator, lines 278-308, together with
the KinesisSynchronousHandler.processEvent it yields on, lines 242-272).
Records without kinesis data, with a throwing decode, or with a falsy
parse never yield: they stay inside the current synchronous segment.  A
dispatched event suspends at the yield; the deferred `it.next(err)` then
pushes a truthy recordError onto badMessages.  A handler invocation
relies on the handler completing asynchronously (the code defers every
other resumption for exactly that reason, line 244): an error makes the
completion closure `throw new Error(MODULE for module err)` from the
asynchronous callback — raised to the runtime, and the generator is never
resumed — while a clean completion resumes the generator. -/
def ordRecordStep (cfg : Config) (st : OrdState) (i : Nat) (r : KRecord) : OrdState :=
  if st.halted then st
  else
    match r.kinesis with
    | none =>
      { st with badMessages := st.badMessages ++ [badMarker ++ " record missing Kinesis data."] }
    | some p =>
      let st := { st with decoded := st.decoded ++ [i] }
      match p with
      | .throwsParse ex =>
        { st with badMessages :=
            st.badMessages ++ [badMarker ++ " failed to decode and parse the data - " ++ ex ++ "."] }
      | .falsyParse => st
      | .eventParse e =>
        match processEvent cfg (some (effEvent cfg r e)) with
        | .error tyMsg =>
          if st.firstSeg then
            { st with trace := st.trace ++ [.calledBack (.exn tyMsg)], halted := true }
          else
            { st with uncaught := some tyMsg, halted := true }
        | .ok (.completeNow err) =>
          let st := { st with firstSeg := false }
          match err with
          | some s => { st with badMessages := st.badMessages ++ [s] }
          | none => st
        | .ok (.invokeHandler ds) =>
          let st := { st with trace := st.trace ++ [.invokedHandler i ds], firstSeg := false }
          match r.handler.err with
          | some s => { st with uncaught := some (modulePre cfg.module ++ s), halted := true }
          | none => st

/-- The ordered driver's record iteration, with `i` the index of the
first record of `records` within the batch. -/
def ordLoop (cfg : Config) : Nat → List KRecord → OrdState → OrdState
  | _, [], st => st
  | i, r :: rest, st => ordLoop cfg (i + 1) rest (ordRecordStep cfg st i r)

/-- Initial ordered-driver state. -/
def ordInit : OrdState :=
  { badMessages := [], trace := [], uncaught := none, decoded := [],
    firstSeg := true, halted := false }

/-- KinesisSynchronousHandler.processKinesisEvent (lines 315-332): a batch
failing the shape check calls the callback once with the no-records
message; otherwise the generator drains the records.  When the generator
finishes it logs badMessages and returns — nothing calls the callback on
that path. -/
def processKinesisEventSync (cfg : Config) (kev : KinesisEvent) : OrdState :=
  match kev with
  | .invalidShape =>
    { ordInit with
      trace := [.calledBack (.errStr
        (modulePre cfg.module ++ METHOD_PROCESS_KINESIS_EVENT ++ " - no records received."))] }
  | .valid records => ordLoop cfg 0 records ordInit

/-- Non-fatality of a completion error value under the `complete` closure
of the concurrent driver: `none` counts directly, and `some e` counts
exactly when the module-tagged message contains the module-tagged
bad-message marker. -/
def nonFatalErr (cfg : Config) : Option String → Bool
  | none => true
  | some e => strContains (modulePre cfg.module ++ e) (modulePre cfg.module ++ badMarker)

/-- A record that yields exactly one completion under the concurrent
driver and whose completion is non-fatal: missing kinesis data and decode
failures complete with marker-led bad messages; a falsy parse never
completes; a dispatched event must not throw, and a completion carried by
the dispatcher or by the record's handler must pass the bad-message
test.  This is the per-record hypothesis of the concurrent-success
claims. -/
def completesNonFatal (cfg : Config) (r : KRecord) : Bool :=
  match r.kinesis with
  | none => true
  | some (.throwsParse _) => true
  | some .falsyParse => false
  | some (.eventParse e) =>
    match processEvent cfg (some (effEvent cfg r e)) with
    | .error _ => false
    | .ok (.completeNow err) => nonFatalErr cfg err
    | .ok (.invokeHandler _) => nonFatalErr cfg r.handler.err

/-- A record whose ordered-driver step neither raises nor reports through
the callback: every path except a dispatch TypeError and a
handler-reported error. -/
def ordNonFatalRecord (cfg : Config) (r : KRecord) : Bool :=
  match r.kinesis with
  | none => true
  | some (.throwsParse _) => true
  | some .falsyParse => true
  | some (.eventParse e) =>
    match processEvent cfg (some (effEvent cfg r e)) with
    | .error _ => false
    | .ok (.completeNow _) => true
    | .ok (.invokeHandler _) => r.handler.err == none

/-- A record that contributes one badMessages entry in the ordered driver:
missing data, decode failure, or a dispatcher bad-message completion. -/
def ordIsBad (cfg : Config) (r : KRecord) : Bool :=
  match r.kinesis with
  | none => true
  | some (.throwsParse _) => true
  | some .falsyParse => false
  | some (.eventParse e) =>
    match processEvent cfg (some (effEvent cfg r e)) with
    | .ok (.completeNow (some _)) => true
    | _ => false

/-- A record whose dispatch decision invokes a registered handler. -/
def ordIsInvoke (cfg : Config) (r : KRecord) : Bool :=
  match r.kinesis with
  | some (.eventParse e) =>
    match processEvent cfg (some (effEvent cfg r e)) with
    | .ok (.invokeHandler _) => true
    | _ => false
  | _ => false

/-- Indices (from `i`) of the records whose dispatch invokes a handler, in
record order.  Written from the spec's description of the ordered drain
(handlers of the remaining records are invoked in record order), for
comparison with the trace of the embedded driver. -/
def ordInvokedIdx (cfg : Config) : Nat → List KRecord → List Nat
  | _, [] => []
  | i, r :: rest =>
    (if ordIsInvoke cfg r then [i] else []) ++ ordInvokedIdx cfg (i + 1) rest

/-- Test fixture: an instance configured with envelope identity v/env/1,
module label m and one registered payload schema v/s/1. -/
def cfgT : Config :=
  { eventSchemaId := "v/env/1", module := "m", pairs := ["v/s/1"], transfomer := none }

/-- Test fixture: a second instance with a different module label and no
registered payload schemas. -/
def cfgT2 : Config :=
  { eventSchemaId := "v/env/1", module := "mod2", pairs := [], transfomer := none }

/-- Test fixture: an event that validates and routes to the registered
v/s/1 handler. -/
def goodEvent : Event :=
  { schema := some "v/env/1", envValid := true, envErrText := "",
    data := some { schema := some "v/s/1", valid := true, valErrText := "" } }

/-- Test fixture: an event whose declared envelope schema mismatches the
configured identity (a non-fatal bad message). -/
def badEnvEvent : Event :=
  { schema := some "wrong", envValid := true, envErrText := "", data := none }

/-- Test fixture: an envelope-valid event with no data field (triggers the
TypeError of the handler-lookup step). -/
def noDataEvent : Event :=
  { schema := some "v/env/1", envValid := true, envErrText := "", data := none }

/-- Test fixture: an event passing the envelope checks whose data.schema
is not registered. -/
def unregEvent : Event :=
  { schema := some "v/env/1", envValid := true, envErrText := "",
    data := some { schema := some "v/unreg/9", valid := true, valErrText := "" } }

/-- Test fixture: a record routing to the registered handler, which
completes asynchronously with no error. -/
def goodRec : KRecord :=
  { kinesis := some (.eventParse goodEvent), handler := { sync := false, err := none } }

/-- Test fixture: a record whose event mismatches the envelope schema. -/
def badRec : KRecord :=
  { kinesis := some (.eventParse badEnvEvent), handler := { sync := false, err := none } }

/-- Test fixture: a record with no kinesis data. -/
def missRec : KRecord := { kinesis := none, handler := { sync := false, err := none } }

/-- Test fixture: a record routing to the registered handler, which
completes asynchronously with the fatal error text boom. -/
def fatalRec : KRecord :=
  { kinesis := some (.eventParse goodEvent), handler := { sync := false, err := some "boom" } }

/-- Test fixture: a five-record batch whose records at positions 2 and 4
(1-indexed) are bad messages while all others dispatch successfully. -/
def batch5 : List KRecord := [goodRec, badRec, goodRec, badRec, goodRec]

/-- Test fixture: an error value that contains the bad-message marker in
mid-string, without the module tag in front of it. -/
def cexErrC5 : String := "AWS failure processEvent bad msg: retry"

/-- Test fixture: a record whose handler completes asynchronously with
the mid-string-marker error value. -/
def recC5 : KRecord :=
  { kinesis := some (.eventParse goodEvent), handler := { sync := false, err := some cexErrC5 } }

/-- Test fixture: a registration state already holding the envelope
schema. -/
def regSt0 : RegState := { ajvSchemas := ["v/env/1"], schemaMethodPairs := [] }

/-- Test fixture: a schema document with identity v/s/1. -/
def schW8 : SchemaDoc := { vendor := "v", name := "s", version := "1" }

/-- Invariant of the concurrent driver's record loop after `j` records of
a batch of size `n` have been processed, under the
all-records-complete-non-fatally hypothesis: the loop was not aborted,
nothing was raised, every processed record contributed either one counted
completion or one pending completion, the trace holds exactly the counted
completions, the callback has fired (once, with success, after `n`
completions) exactly when the counter has reached `n`, and every pending
completion is non-fatal. -/
structure ConcInv (cfg : Config) (n j : Nat) (st : ConcState) : Prop where
  halted : st.halted = false
  uncaught : st.uncaught = none
  count : st.successes + st.pending.length = j
  compl : (completionsOf st.trace).length = st.successes
  cbEq : st.successes = n → ∃ tr, st.trace = tr ++ [.calledBack .success]
    ∧ cbOf tr = [] ∧ (completionsOf tr).length = n
  cbNe : st.successes ≠ n → cbOf st.trace = []
  pendNF : ∀ p ∈ st.pending, nonFatalErr cfg p.2 = true

theorem isPrefixL_self_append (l t : List Char) : isPrefixL l (l ++ t) = true := by
  induction l with
  | nil => rfl
  | cons a as ih => simp [isPrefixL, ih]

theorem containsL_of_isPrefixL (n l : List Char) (h : isPrefixL n l = true) :
    containsL n l = true := by
  cases l with
  | nil => simpa [containsL] using h
  | cons c rest => simp [containsL, h]

theorem strContains_pre_marker (p m t : String) :
    strContains (p ++ (m ++ t)) (p ++ m) = true := by
  have hd : (p ++ (m ++ t)).data = (p ++ m).data ++ t.data := by
    show p.data ++ (m.data ++ t.data) = (p.data ++ m.data) ++ t.data
    exact (List.append_assoc _ _ _).symm
  unfold strContains
  rw [hd]
  exact containsL_of_isPrefixL _ _ (isPrefixL_self_append _ _)

theorem strAppend_assoc (a b c : String) : a ++ b ++ c = a ++ (b ++ c) :=
  congrArg String.mk (List.append_assoc a.data b.data c.data)

theorem nonFatalErr_marker (cfg : Config) (t : String) :
    nonFatalErr cfg (some (badMarker ++ t)) = true := by
  simp [nonFatalErr, strContains_pre_marker]

theorem completeStep_nonFatal (cfg : Config) (n s : Nat) (err : Option String)
    (h : nonFatalErr cfg err = true) :
    completeStep cfg n s err = .counted (s + 1) (s + 1 == n) := by
  cases err with
  | none => rfl
  | some e =>
    simp only [nonFatalErr] at h
    simp [completeStep, h]

theorem completeStep_fatal (cfg : Config) (n s : Nat) (e : String)
    (h : strContains (modulePre cfg.module ++ e) (modulePre cfg.module ++ badMarker) = false) :
    completeStep cfg n s (some e) = .fatalRaise (modulePre cfg.module ++ e) := by
  simp [completeStep, h]

theorem inlineComplete_nonFatal (cfg : Config) (n i : Nat) (st : ConcState)
    (err : Option String) (h : nonFatalErr cfg err = true) :
    inlineComplete cfg n i st err =
      { st with
        successes := st.successes + 1,
        trace := st.trace ++ [.completed i]
          ++ (if st.successes + 1 == n then [.calledBack .success] else []) } := by
  unfold inlineComplete
  rw [completeStep_nonFatal cfg n st.successes err h]

theorem cbOf_append (a b : List TraceEv) : cbOf (a ++ b) = cbOf a ++ cbOf b := by
  simp [cbOf]

theorem invokedOf_append (a b : List TraceEv) :
    invokedOf (a ++ b) = invokedOf a ++ invokedOf b := by
  simp [invokedOf]

theorem completionsOf_append (a b : List TraceEv) :
    completionsOf (a ++ b) = completionsOf a ++ completionsOf b := by
  simp [completionsOf]

theorem cbOf_completed (i : Nat) : cbOf [TraceEv.completed i] = [] := rfl

theorem cbOf_invoked (i : Nat) (s : String) : cbOf [TraceEv.invokedHandler i s] = [] := rfl

theorem cbOf_cb (c : CallbackCall) : cbOf [TraceEv.calledBack c] = [c] := rfl

theorem invokedOf_completed (i : Nat) : invokedOf [TraceEv.completed i] = [] := rfl

theorem invokedOf_invoked (i : Nat) (s : String) :
    invokedOf [TraceEv.invokedHandler i s] = [i] := rfl

theorem invokedOf_cb (c : CallbackCall) : invokedOf [TraceEv.calledBack c] = [] := rfl

theorem completionsOf_completed (i : Nat) : completionsOf [TraceEv.completed i] = [i] := rfl

theorem completionsOf_invoked (i : Nat) (s : String) :
    completionsOf [TraceEv.invokedHandler i s] = [] := rfl

theorem completionsOf_cb (c : CallbackCall) : completionsOf [TraceEv.calledBack c] = [] := rfl

theorem cbOf_nil : cbOf [] = [] := rfl

theorem invokedOf_nil : invokedOf [] = [] := rfl

theorem completionsOf_nil : completionsOf [] = [] := rfl

theorem cbOf_cons_completed (i : Nat) (tr : List TraceEv) :
    cbOf (TraceEv.completed i :: tr) = cbOf tr := rfl

theorem cbOf_cons_invoked (i : Nat) (s : String) (tr : List TraceEv) :
    cbOf (TraceEv.invokedHandler i s :: tr) = cbOf tr := rfl

theorem cbOf_cons_cb (c : CallbackCall) (tr : List TraceEv) :
    cbOf (TraceEv.calledBack c :: tr) = c :: cbOf tr := rfl

theorem invokedOf_cons_completed (i : Nat) (tr : List TraceEv) :
    invokedOf (TraceEv.completed i :: tr) = invokedOf tr := rfl

theorem invokedOf_cons_invoked (i : Nat) (s : String) (tr : List TraceEv) :
    invokedOf (TraceEv.invokedHandler i s :: tr) = i :: invokedOf tr := rfl

theorem invokedOf_cons_cb (c : CallbackCall) (tr : List TraceEv) :
    invokedOf (TraceEv.calledBack c :: tr) = invokedOf tr := rfl

theorem completionsOf_cons_completed (i : Nat) (tr : List TraceEv) :
    completionsOf (TraceEv.completed i :: tr) = i :: completionsOf tr := rfl

theorem completionsOf_cons_invoked (i : Nat) (s : String) (tr : List TraceEv) :
    completionsOf (TraceEv.invokedHandler i s :: tr) = completionsOf tr := rfl

theorem completionsOf_cons_cb (c : CallbackCall) (tr : List TraceEv) :
    completionsOf (TraceEv.calledBack c :: tr) = completionsOf tr := rfl

/-- C7: for every decoded event that passes the envelope checks (schema
equal to the configured identity, envelope validation succeeding, data
present) but whose data.schema matches no registered handler identity,
the dispatcher classifies it as unsupported schema: processEvent itself
issues an immediate, error-free completion (`completeNow none`) and in
particular never returns a handler invocation, so no registered handler
runs for that event. -/
theorem unsupported_schema_complete_no_error (cfg : Config) (e : Event) (d : EventData)
    (hs : e.schema = some cfg.eventSchemaId) (hv : e.envValid = true)
    (hd : e.data = some d)
    (hu : ∀ s, d.schema = some s → cfg.pairs.contains s = false) :
    processEvent cfg (some e) = .ok (.completeNow none) := by
  cases hds : d.schema with
  | none => simp [processEvent, hs, hv, hd, hds]
  | some s =>
    have hmem : s ∉ cfg.pairs := by simpa using hu s hds
    simp [processEvent, hs, hv, hd, hds, hmem]

/-- C7 witness: the fixture event with unregistered data schema v/unreg/9
is dispatched by cfgT as an error-free completion. -/
theorem unsupported_schema_complete_no_error_witness :
    unregEvent.schema = some cfgT.eventSchemaId ∧ unregEvent.envValid = true
    ∧ processEvent cfgT (some unregEvent) = .ok (.completeNow none) :=
  ⟨rfl, rfl,
    unsupported_schema_complete_no_error cfgT unregEvent
      { schema := some "v/unreg/9", valid := true, valErrText := "" } rfl rfl rfl
      (fun s h => by injection h with h; subst h; decide)⟩

/-- C9: processEvent is not total over envelope-valid events lacking a
data field — for any event whose schema equals the configured envelope
identity and which validates against the envelope schema but has no data
field, the unconditional read of event.data.schema at the handler-lookup
step throws a TypeError (the model returns `Except.error`), instead of
producing any rejection classification or completion. -/
theorem processEvent_missing_data_throws (cfg : Config) (e : Event)
    (hs : e.schema = some cfg.eventSchemaId) (hv : e.envValid = true)
    (hd : e.data = none) :
    processEvent cfg (some e) = .error typeErrorDataMsg := by
  simp [processEvent, hs, hv, hd]

/-- C9 witness: the envelope-valid fixture event without a data field
makes processEvent of cfgT throw. -/
theorem processEvent_missing_data_throws_witness :
    noDataEvent.schema = some cfgT.eventSchemaId ∧ noDataEvent.envValid = true
    ∧ noDataEvent.data = none
    ∧ processEvent cfgT (some noDataEvent) = .error typeErrorDataMsg :=
  ⟨rfl, rfl, rfl, processEvent_missing_data_throws cfgT noDataEvent rfl rfl rfl⟩

/-- C10: registration is not atomic on error — for every registration
with a method that is not a two-parameter function,
registerSchemaMethodPair (both constructors of lib/kinesisHandler.js use
this same code) adds the schema to the validator under its derived
identity and only then throws, so the failed call leaves the schema added
to the validator while the handler map is unchanged. -/
theorem register_adds_schema_before_arity_check (st : RegState) (schema : SchemaDoc)
    (method : JsMethod) (h : isTwoParamFunction method = false) :
    registerSchemaMethodPair st schema method =
      ({ st with ajvSchemas := st.ajvSchemas ++ [makeSchemaId schema] },
        some "Method must be a function of the form (event, callback) => \x7b . . . \x7d") := by
  simp [registerSchemaMethodPair, h]

/-- C10 witness: registering a one-parameter function on the fixture
state errors out yet leaves v/s/1 added to the validator schemas, with
the handler map untouched. -/
theorem register_adds_schema_before_arity_check_witness :
    isTwoParamFunction (.func 1) = false
    ∧ registerSchemaMethodPair regSt0 schW8 (.func 1) =
      ({ ajvSchemas := ["v/env/1", "v/s/1"], schemaMethodPairs := [] },
        some "Method must be a function of the form (event, callback) => \x7b . . . \x7d") :=
  ⟨rfl, register_adds_schema_before_arity_check regSt0 schW8 (.func 1) rfl⟩

/-- C8: the claim (registration with a method that is not a two-parameter
function raises a contract violation at registration time) holds for
registerSchemaMethodPair of lib/kinesisHandler.js but is violated by the
legacy src/lib/kinesis-handler.js, whose registerSchemaMethodPair stores
a one-parameter method without any check and without failing — its own
doc comment records the missing enforcement as a TODO.  This theorem
evaluates both routines at the failing input. -/
theorem legacy_register_no_arity_check :
    legacyRegisterSchemaMethodPair regSt0 schW8 (.func 1) =
      { ajvSchemas := ["v/env/1", "v/s/1"], schemaMethodPairs := [("v/s/1", .func 1)] }
    ∧ (registerSchemaMethodPair regSt0 schW8 (.func 1)).2 =
      some "Method must be a function of the form (event, callback) => \x7b . . . \x7d" :=
  ⟨rfl, rfl⟩

/-- C5 counterexample: an error value that contains the bad-message
marker, but in mid-string without the module tag in front of it, is
classified fatal by the complete closure: the claim says every completion
whose error value contains the marker is non-fatal and counted, yet on
this input completeStep raises instead of counting, the full concurrent
run ends with an uncaught Error, the record is never counted, and the
callback never fires. -/
theorem marker_substring_still_fatal_cex :
    strContains cexErrC5 badMarker = true
    ∧ completeStep cfgT 1 0 (some cexErrC5) = .fatalRaise (modulePre "m" ++ cexErrC5)
    ∧ (processKinesisEvent cfgT (.valid [recC5]) [(0, some cexErrC5)]).uncaught =
      some (modulePre "m" ++ cexErrC5)
    ∧ (processKinesisEvent cfgT (.valid [recC5]) [(0, some cexErrC5)]).successes = 0
    ∧ cbOf (processKinesisEvent cfgT (.valid [recC5]) [(0, some cexErrC5)]).trace = [] := by
  refine ⟨by decide, rfl, rfl, rfl, rfl⟩

/-- C5 (amended): the complete closure of the concurrent driver treats a
completion as non-fatal exactly when the module-tagged message contains
the module-tagged bad-message marker — in particular every error value
that begins with the marker, as all dispatcher-generated bad messages do,
is logged and counted toward batch progress exactly like a success —
while every completion whose module-tagged message lacks that substring
is fatal: an Error wrapping the message is raised immediately, the record
is never counted, and delivery of the remaining completions (hence the
normal all-records-done success path) is aborted. -/
theorem complete_fatality_classification_amended :
    (∀ (cfg : Config) (n s : Nat) (t : String),
      completeStep cfg n s (some (badMarker ++ t)) = .counted (s + 1) (s + 1 == n))
    ∧ (∀ (cfg : Config) (n s : Nat),
      completeStep cfg n s none = .counted (s + 1) (s + 1 == n))
    ∧ (∀ (cfg : Config) (n s : Nat) (e : String),
      strContains (modulePre cfg.module ++ e) (modulePre cfg.module ++ badMarker) = false →
      completeStep cfg n s (some e) = .fatalRaise (modulePre cfg.module ++ e))
    ∧ (∀ (cfg : Config) (n : Nat) (st : ConcState) (i : Nat) (e : String)
        (rest : List (Nat × Option String)),
      strContains (modulePre cfg.module ++ e) (modulePre cfg.module ++ badMarker) = false →
      concDrain cfg n st ((i, some e) :: rest) =
        { st with uncaught := some (modulePre cfg.module ++ e) }) := by
  refine ⟨?_, ?_, ?_, ?_⟩
  · intro cfg n s t
    exact completeStep_nonFatal cfg n s _ (nonFatalErr_marker cfg t)
  · intro cfg n s
    rfl
  · intro cfg n s e h
    exact completeStep_fatal cfg n s e h
  · intro cfg n st i e rest h
    simp [concDrain, completeStep_fatal cfg n st.successes e h]

/-- C5 witness: the amended classification evaluated at concrete inputs —
a marker-led error is counted, and the fatal error boom is raised by the
drain, dropping the rest of the arrivals and leaving the counter
untouched. -/
theorem complete_fatality_classification_amended_witness :
    completeStep cfgT 3 0 (some (badMarker ++ " x")) = .counted 1 false
    ∧ strContains (modulePre "m" ++ "boom") (modulePre "m" ++ badMarker) = false
    ∧ concDrain cfgT 3 concInit [(0, some "boom"), (1, none)] =
      { concInit with uncaught := some (modulePre "m" ++ "boom") } :=
  ⟨complete_fatality_classification_amended.1 cfgT 3 0 " x", by decide,
    complete_fatality_classification_amended.2.2.2 cfgT 3 concInit 0 "boom" [(1, none)]
      (by decide)⟩

/-- C6: a record that lacks the nested kinesis.data payload field, or
whose payload fails base64 decoding or JSON parsing, is a decode failure:
under the concurrent driver its step counts one non-fatal bad-message
completion (the counter advances, the loop is not aborted, nothing is
raised, nothing new is pending) without invoking any handler, and with no
batch-level failure (the callback receives at most the ordinary
whole-batch success); under the ordered driver its step appends one
marker-led entry to badMessages, continues (not halted, nothing raised)
and invokes no handler. -/
theorem decode_failure_nonfatal_no_handler (cfg : Config) (n i : Nat)
    (st : ConcState) (ost : OrdState) (r : KRecord) (ex : String)
    (hst : st.halted = false) (host : ost.halted = false)
    (hr : r.kinesis = none ∨ r.kinesis = some (.throwsParse ex)) :
    ((concRecordStep cfg n st i r).successes = st.successes + 1
      ∧ (concRecordStep cfg n st i r).halted = false
      ∧ (concRecordStep cfg n st i r).uncaught = st.uncaught
      ∧ (concRecordStep cfg n st i r).pending = st.pending
      ∧ invokedOf (concRecordStep cfg n st i r).trace = invokedOf st.trace
      ∧ (cbOf (concRecordStep cfg n st i r).trace = cbOf st.trace
        ∨ cbOf (concRecordStep cfg n st i r).trace = cbOf st.trace ++ [.success]))
    ∧ ((∃ t, (ordRecordStep cfg ost i r).badMessages = ost.badMessages ++ [badMarker ++ t])
      ∧ (ordRecordStep cfg ost i r).halted = false
      ∧ (ordRecordStep cfg ost i r).uncaught = ost.uncaught
      ∧ (ordRecordStep cfg ost i r).trace = ost.trace) := by
  have hconc : ∀ t : String,
      inlineComplete cfg n i st (some (badMarker ++ t)) =
        { st with
          successes := st.successes + 1,
          trace := st.trace ++ [.completed i]
            ++ (if st.successes + 1 == n then [.calledBack .success] else []) } :=
    fun t => inlineComplete_nonFatal cfg n i st _ (nonFatalErr_marker cfg t)
  rcases hr with hkin | hkin
  · refine ⟨?_, ?_⟩
    · rw [show concRecordStep cfg n st i r =
          inlineComplete cfg n i st (some (badMarker ++ " record missing Kinesis data.")) by
        simp [concRecordStep, hst, hkin]]
      rw [hconc]
      refine ⟨rfl, hst, rfl, rfl, ?_, ?_⟩
      · cases h : (st.successes + 1 == n) <;> simp [invokedOf]
      · cases h : (st.successes + 1 == n)
        · left; simp [h, cbOf]
        · right; simp [h, cbOf]
    · refine ⟨⟨" record missing Kinesis data.", ?_⟩, ?_, ?_, ?_⟩ <;>
        simp [ordRecordStep, host, hkin]
  · refine ⟨?_, ?_⟩
    · rw [show concRecordStep cfg n st i r =
          inlineComplete cfg n i st
            (some (badMarker ++ (" failed to decode and parse the data - " ++ ex ++ "."))) by
        simp [concRecordStep, hst, hkin, strAppend_assoc]]
      rw [hconc]
      refine ⟨rfl, hst, rfl, rfl, ?_, ?_⟩
      · cases h : (st.successes + 1 == n) <;> simp [invokedOf]
      · cases h : (st.successes + 1 == n)
        · left; simp [h, cbOf]
        · right; simp [h, cbOf]
    · refine ⟨⟨" failed to decode and parse the data - " ++ ex ++ ".", ?_⟩, ?_, ?_, ?_⟩ <;>
        simp [ordRecordStep, host, hkin, strAppend_assoc]

/-- C6 witness: the missing-data fixture record evaluated in both drivers
from the initial states. -/
theorem decode_failure_nonfatal_no_handler_witness :
    concInit.halted = false ∧ ordInit.halted = false ∧ missRec.kinesis = none
    ∧ (concRecordStep cfgT 3 concInit 1 missRec).successes = 1
    ∧ invokedOf (concRecordStep cfgT 3 concInit 1 missRec).trace = []
    ∧ (ordRecordStep cfgT ordInit 1 missRec).halted = false :=
  ⟨rfl, rfl, rfl,
    (decode_failure_nonfatal_no_handler cfgT 3 1 concInit ordInit missRec "" rfl rfl
      (Or.inl rfl)).1.1,
    (decode_failure_nonfatal_no_handler cfgT 3 1 concInit ordInit missRec "" rfl rfl
      (Or.inl rfl)).1.2.2.2.2.1,
    (decode_failure_nonfatal_no_handler cfgT 3 1 concInit ordInit missRec "" rfl rfl
      (Or.inl rfl)).2.2.1⟩

theorem concInv_inlineComplete (cfg : Config) (n j i : Nat) (st st1 : ConcState)
    (err : Option String) (inv : ConcInv cfg n j st) (hj : j < n)
    (hnf : nonFatalErr cfg err = true)
    (hsucc : st1.successes = st.successes)
    (hpend : st1.pending = st.pending)
    (hhalt : st1.halted = false) (hunc : st1.uncaught = none)
    (hcb : cbOf st1.trace = cbOf st.trace)
    (hco : completionsOf st1.trace = completionsOf st.trace) :
    ConcInv cfg n (j + 1) (inlineComplete cfg n i st1 err) := by
  have hsle : st.successes ≤ j := Nat.le.intro inv.count
  have hsne : st.successes ≠ n := by omega
  rw [inlineComplete_nonFatal cfg n i st1 err hnf]
  refine ⟨hhalt, hunc, ?_, ?_, ?_, ?_, ?_⟩
  · show st1.successes + 1 + st1.pending.length = j + 1
    rw [hsucc, hpend]
    have hc := inv.count
    omega
  · show (completionsOf (st1.trace ++ [.completed i] ++ _)).length = st1.successes + 1
    cases hd : (st1.successes + 1 == n) <;>
      simp [hd, completionsOf_append, completionsOf_cons_completed, completionsOf_cons_cb,
        completionsOf_nil, hco, inv.compl, hsucc]
  · intro h
    have h2 : st1.successes + 1 = n := h
    have hd : (st1.successes + 1 == n) = true := by simpa using h2
    refine ⟨st1.trace ++ [.completed i], by simp [hd], ?_, ?_⟩
    · simp [cbOf_append, cbOf_completed, hcb, inv.cbNe hsne]
    · have hc := inv.compl
      simp [completionsOf_append, completionsOf_completed, hco]
      omega
  · intro h
    have h2 : st1.successes + 1 ≠ n := h
    have hd : (st1.successes + 1 == n) = false := by simpa using h2
    simp [hd, cbOf_append, cbOf_completed, hcb, inv.cbNe hsne]
  · show ∀ p ∈ st1.pending, nonFatalErr cfg p.2 = true
    rw [hpend]
    exact inv.pendNF

theorem concInv_step (cfg : Config) (n j i : Nat) (st : ConcState) (r : KRecord)
    (inv : ConcInv cfg n j st) (hj : j < n)
    (hr : completesNonFatal cfg r = true) :
    ConcInv cfg n (j + 1) (concRecordStep cfg n st i r) := by
  cases hkin : r.kinesis with
  | none =>
    have h := concInv_inlineComplete cfg n j i st st _ inv hj
      (nonFatalErr_marker cfg " record missing Kinesis data.") rfl rfl inv.halted
      inv.uncaught rfl rfl
    have heq : concRecordStep cfg n st i r =
        inlineComplete cfg n i st (some (badMarker ++ " record missing Kinesis data.")) := by
      simp [concRecordStep, inv.halted, hkin]
    rw [heq]
    exact h
  | some p =>
    cases p with
    | throwsParse ex =>
      have hm : badMarker ++ " failed to decode and parse the data - " ++ ex ++ "." =
          badMarker ++ (" failed to decode and parse the data - " ++ ex ++ ".") := by
        simp [strAppend_assoc]
      have hnf : nonFatalErr cfg
          (some (badMarker ++ " failed to decode and parse the data - " ++ ex ++ ".")) = true := by
        rw [hm]
        exact nonFatalErr_marker cfg _
      have h := concInv_inlineComplete cfg n j i st st _ inv hj hnf rfl rfl inv.halted
        inv.uncaught rfl rfl
      have heq : concRecordStep cfg n st i r =
          inlineComplete cfg n i st
            (some (badMarker ++ " failed to decode and parse the data - " ++ ex ++ ".")) := by
        simp [concRecordStep, inv.halted, hkin]
      rw [heq]
      exact h
    | falsyParse =>
      exfalso
      simp [completesNonFatal, hkin] at hr
    | eventParse e =>
      cases hpe : processEvent cfg (some (effEvent cfg r e)) with
      | error m =>
        exfalso
        simp [completesNonFatal, hkin, hpe] at hr
      | ok dr =>
        cases dr with
        | completeNow err =>
          have hnf : nonFatalErr cfg err = true := by
            simpa [completesNonFatal, hkin, hpe] using hr
          have h := concInv_inlineComplete cfg n j i st st err inv hj hnf rfl rfl inv.halted
            inv.uncaught rfl rfl
          have heq : concRecordStep cfg n st i r = inlineComplete cfg n i st err := by
            simp [concRecordStep, inv.halted, hkin, hpe]
          rw [heq]
          exact h
        | invokeHandler ds =>
          have hnf : nonFatalErr cfg r.handler.err = true := by
            simpa [completesNonFatal, hkin, hpe] using hr
          cases hsy : r.handler.sync with
          | true =>
            have h := concInv_inlineComplete cfg n j i st
              { st with trace := st.trace ++ [.invokedHandler i ds] } r.handler.err inv hj
              hnf rfl rfl inv.halted inv.uncaught
              (by simp [cbOf_append, cbOf_invoked])
              (by simp [completionsOf_append, completionsOf_invoked])
            have heq : concRecordStep cfg n st i r =
                inlineComplete cfg n i { st with trace := st.trace ++ [.invokedHandler i ds] }
                  r.handler.err := by
              simp [concRecordStep, inv.halted, hkin, hpe, hsy]
            rw [heq]
            exact h
          | false =>
            have heq : concRecordStep cfg n st i r =
                { st with
                  trace := st.trace ++ [.invokedHandler i ds],
                  pending := st.pending ++ [(i, r.handler.err)] } := by
              simp [concRecordStep, inv.halted, hkin, hpe, hsy]
            rw [heq]
            have hsle : st.successes ≤ j := Nat.le.intro inv.count
            have hsne : st.successes ≠ n := by omega
            refine ⟨inv.halted, inv.uncaught, ?_, ?_, ?_, ?_, ?_⟩
            · show st.successes + (st.pending ++ [(i, r.handler.err)]).length = j + 1
              have hc := inv.count
              simp
              omega
            · simpa [completionsOf_append, completionsOf_invoked] using inv.compl
            · intro h
              exact absurd h hsne
            · intro _
              simp [cbOf_append, cbOf_invoked, inv.cbNe hsne]
            · intro q hq
              rcases List.mem_append.mp hq with h1 | h2
              · exact inv.pendNF q h1
              · have : q = (i, r.handler.err) := by simpa using h2
                subst this
                exact hnf

theorem concInv_loop (cfg : Config) (n : Nat) (recs : List KRecord) :
    ∀ (i j : Nat) (st : ConcState), ConcInv cfg n j st → j + recs.length = n →
    (∀ r ∈ recs, completesNonFatal cfg r = true) →
    ConcInv cfg n n (concLoop cfg n i recs st) := by
  induction recs with
  | nil =>
    intro i j st inv hlen _
    have hj : j = n := by simpa using hlen
    subst hj
    exact inv
  | cons r rest ih =>
    intro i j st inv hlen hall
    have hj : j < n := by
      simp [List.length_cons] at hlen
      omega
    have hstep := concInv_step cfg n j i st r inv hj (hall r (by simp))
    have hres := ih (i + 1) (j + 1) (concRecordStep cfg n st i r) hstep
      (by simp [List.length_cons] at hlen ⊢; omega)
      (fun r2 h2 => hall r2 (by simp [h2]))
    exact hres

theorem concInv_drain (cfg : Config) (n : Nat) (arr : List (Nat × Option String)) :
    ∀ st : ConcState,
    st.successes + arr.length = n →
    (completionsOf st.trace).length = st.successes →
    (st.successes = n → ∃ tr, st.trace = tr ++ [.calledBack .success]
      ∧ cbOf tr = [] ∧ (completionsOf tr).length = n) →
    (st.successes ≠ n → cbOf st.trace = []) →
    (∀ p ∈ arr, nonFatalErr cfg p.2 = true) →
    ∃ tr, (concDrain cfg n st arr).trace = tr ++ [.calledBack .success]
      ∧ cbOf tr = [] ∧ (completionsOf tr).length = n := by
  induction arr with
  | nil =>
    intro st hc hcl heq hne hnf
    have hs : st.successes = n := by simpa using hc
    simpa [concDrain] using heq hs
  | cons a rest ih =>
    intro st hc hcl heq hne hnf
    obtain ⟨i, err⟩ := a
    have hnfa : nonFatalErr cfg err = true := hnf (i, err) (by simp)
    have hne2 : st.successes ≠ n := by
      simp [List.length_cons] at hc
      omega
    by_cases hdone : st.successes + 1 = n
    · have hrest : rest = [] := by
        simp [List.length_cons] at hc
        have h0 : rest.length = 0 := by omega
        exact List.length_eq_zero.mp h0
      subst hrest
      have hd : (st.successes + 1 == n) = true := by simpa using hdone
      refine ⟨st.trace ++ [.completed i], ?_, ?_, ?_⟩
      · simp [concDrain, completeStep_nonFatal cfg n st.successes err hnfa, hd]
      · simp [cbOf_append, cbOf_completed, hne hne2]
      · simp [completionsOf_append, completionsOf_completed, hcl]
        omega
    · have hd : (st.successes + 1 == n) = false := by simpa using hdone
      have heq2 : concDrain cfg n st ((i, err) :: rest) =
          concDrain cfg n
            { st with
              successes := st.successes + 1,
              trace := st.trace ++ [.completed i] } rest := by
        simp [concDrain, completeStep_nonFatal cfg n st.successes err hnfa, hd]
      rw [heq2]
      apply ih
      · simp [List.length_cons] at hc
        simp
        omega
      · simp [completionsOf_append, completionsOf_completed, hcl]
      · intro h
        exact absurd h hdone
      · intro _
        simp [cbOf_append, cbOf_completed, hne hne2]
      · intro p hp
        exact hnf p (by simp [hp])

theorem conc_success_main (cfg : Config) (records : List KRecord)
    (arrivals : List (Nat × Option String)) (hne : records ≠ [])
    (hall : ∀ r ∈ records, completesNonFatal cfg r = true)
    (hperm : arrivals.Perm (concLoop cfg records.length 0 records concInit).pending) :
    ∃ tr, (processKinesisEvent cfg (.valid records) arrivals).trace
        = tr ++ [.calledBack .success]
      ∧ cbOf tr = [] ∧ (completionsOf tr).length = records.length := by
  have hn : 0 < records.length := List.length_pos.mpr hne
  have inv0 : ConcInv cfg records.length 0 concInit :=
    ⟨rfl, rfl, rfl, rfl, fun h => absurd h.symm (Nat.ne_of_gt hn), fun _ => rfl,
      fun p hp => absurd hp (List.not_mem_nil p)⟩
  have invA := concInv_loop cfg records.length records 0 0 concInit inv0 (by simp) hall
  have hlen : arrivals.length =
      (concLoop cfg records.length 0 records concInit).pending.length := hperm.length_eq
  have hdr := concInv_drain cfg records.length arrivals
    (concLoop cfg records.length 0 records concInit)
    (by rw [hlen]; exact invA.count) invA.compl invA.cbEq invA.cbNe
    (fun p hp => invA.pendNF p (hperm.mem_iff.mp hp))
  exact hdr

/-- C2 (amended): for every batch of one or more records in which no
per-record completion carries a fatal error and every record yields
exactly one completion (each dispatched handler calling its completion
exactly once), the concurrent driver invokes the batch-level callback
exactly once with no argument, and only after all N per-record
completions (successes and non-fatal bad messages both counting) have
been observed, regardless of the order in which the asynchronous
completions arrive.  (The empty batch is excluded: there the callback is
never invoked, as the counterexample shows.) -/
theorem concurrent_all_complete_callback_once (cfg : Config) (records : List KRecord)
    (arrivals : List (Nat × Option String)) (hne : records ≠ [])
    (hall : ∀ r ∈ records, completesNonFatal cfg r = true)
    (hperm : arrivals.Perm (concLoop cfg records.length 0 records concInit).pending) :
    cbOf (processKinesisEvent cfg (.valid records) arrivals).trace = [.success]
    ∧ ∃ tr, (processKinesisEvent cfg (.valid records) arrivals).trace
        = tr ++ [.calledBack .success]
      ∧ cbOf tr = [] ∧ (completionsOf tr).length = records.length := by
  obtain ⟨tr, htr, hcb, hco⟩ := conc_success_main cfg records arrivals hne hall hperm
  exact ⟨by simp [htr, cbOf_append, cbOf_cb, hcb], ⟨tr, htr, hcb, hco⟩⟩

/-- C2 counterexample: the empty batch passes the shape check and
vacuously satisfies the no-fatal-completion and exactly-once hypotheses,
yet the callback is never invoked (the counter equality is only ever
tested inside `complete`, which never runs), refuting the claim's
exactly-once guarantee at N = 0. -/
theorem concurrent_empty_batch_no_callback_cex :
    (processKinesisEvent cfgT2 (.valid []) []).trace = []
    ∧ cbOf (processKinesisEvent cfgT2 (.valid []) []).trace = []
    ∧ (cbOf (processKinesisEvent cfgT2 (.valid []) []).trace).length ≠ 1 :=
  ⟨rfl, rfl, by decide⟩

/-- C2 witness: a three-record batch (registered event, missing-data
record, registered event) with the two asynchronous handler completions
arriving in reverse dispatch order still calls the callback exactly once
with no argument. -/
theorem concurrent_all_complete_callback_once_witness :
    ([goodRec, missRec, goodRec] ≠ ([] : List KRecord))
    ∧ (∀ r ∈ [goodRec, missRec, goodRec], completesNonFatal cfgT r = true)
    ∧ cbOf (processKinesisEvent cfgT (.valid [goodRec, missRec, goodRec])
        [(2, none), (0, none)]).trace = [.success] := by
  refine ⟨by simp, by decide, ?_⟩
  exact (concurrent_all_complete_callback_once cfgT [goodRec, missRec, goodRec]
    [(2, none), (0, none)] (by simp) (by decide) (by decide)).1

theorem ordLoop_halted (cfg : Config) (recs : List KRecord) :
    ∀ (i : Nat) (st : OrdState), st.halted = true → ordLoop cfg i recs st = st := by
  induction recs with
  | nil =>
    intro i st _
    rfl
  | cons r rest ih =>
    intro i st h
    show ordLoop cfg (i + 1) rest (ordRecordStep cfg st i r) = st
    rw [show ordRecordStep cfg st i r = st by simp [ordRecordStep, h]]
    exact ih (i + 1) st h

theorem ordStep_nonFatal (cfg : Config) (st : OrdState) (i : Nat) (r : KRecord)
    (hhalt : st.halted = false) (hr : ordNonFatalRecord cfg r = true) :
    (ordRecordStep cfg st i r).halted = false
    ∧ (ordRecordStep cfg st i r).uncaught = st.uncaught
    ∧ cbOf (ordRecordStep cfg st i r).trace = cbOf st.trace
    ∧ (ordRecordStep cfg st i r).badMessages.length
        = st.badMessages.length + (if ordIsBad cfg r then 1 else 0)
    ∧ invokedOf (ordRecordStep cfg st i r).trace
        = invokedOf st.trace ++ (if ordIsInvoke cfg r then [i] else [])
    ∧ ((ordRecordStep cfg st i r).decoded = st.decoded
      ∨ (ordRecordStep cfg st i r).decoded = st.decoded ++ [i]) := by
  cases hkin : r.kinesis with
  | none =>
    refine ⟨?_, ?_, ?_, ?_, ?_, Or.inl ?_⟩ <;>
      simp [ordRecordStep, hhalt, hkin, ordIsBad, ordIsInvoke]
  | some p =>
    cases p with
    | throwsParse ex =>
      refine ⟨?_, ?_, ?_, ?_, ?_, Or.inr ?_⟩ <;>
        simp [ordRecordStep, hhalt, hkin, ordIsBad, ordIsInvoke]
    | falsyParse =>
      refine ⟨?_, ?_, ?_, ?_, ?_, Or.inr ?_⟩ <;>
        simp [ordRecordStep, hhalt, hkin, ordIsBad, ordIsInvoke]
    | eventParse e =>
      cases hpe : processEvent cfg (some (effEvent cfg r e)) with
      | error m =>
        exfalso
        simp [ordNonFatalRecord, hkin, hpe] at hr
      | ok dr =>
        cases dr with
        | completeNow err =>
          cases err with
          | none =>
            refine ⟨?_, ?_, ?_, ?_, ?_, Or.inr ?_⟩ <;>
              simp [ordRecordStep, hhalt, hkin, hpe, ordIsBad, ordIsInvoke]
          | some s =>
            refine ⟨?_, ?_, ?_, ?_, ?_, Or.inr ?_⟩ <;>
              simp [ordRecordStep, hhalt, hkin, hpe, ordIsBad, ordIsInvoke]
        | invokeHandler ds =>
          have herr : r.handler.err = none := by
            simpa [ordNonFatalRecord, hkin, hpe] using hr
          refine ⟨?_, ?_, ?_, ?_, ?_, Or.inr ?_⟩ <;>
            simp [ordRecordStep, hhalt, hkin, hpe, herr, ordIsBad, ordIsInvoke,
              invokedOf_append, invokedOf_invoked, cbOf_append, cbOf_invoked]

theorem ordLoop_nonFatal (cfg : Config) (recs : List KRecord) :
    ∀ (i : Nat) (st : OrdState), st.halted = false →
    (∀ r ∈ recs, ordNonFatalRecord cfg r = true) →
    (ordLoop cfg i recs st).halted = false
    ∧ (ordLoop cfg i recs st).uncaught = st.uncaught
    ∧ cbOf (ordLoop cfg i recs st).trace = cbOf st.trace
    ∧ (ordLoop cfg i recs st).badMessages.length
        = st.badMessages.length + (recs.filter (fun r => ordIsBad cfg r)).length
    ∧ invokedOf (ordLoop cfg i recs st).trace
        = invokedOf st.trace ++ ordInvokedIdx cfg i recs
    ∧ (∀ j ∈ (ordLoop cfg i recs st).decoded,
        j ∈ st.decoded ∨ (i ≤ j ∧ j < i + recs.length)) := by
  induction recs with
  | nil =>
    intro i st h _
    refine ⟨h, rfl, rfl, by simp [ordLoop], by simp [ordLoop, ordInvokedIdx],
      fun j hj => Or.inl hj⟩
  | cons r rest ih =>
    intro i st h hall
    obtain ⟨s1h, s1u, s1cb, s1bad, s1inv, s1dec⟩ :=
      ordStep_nonFatal cfg st i r h (hall r (by simp))
    obtain ⟨l2h, l2u, l2cb, l2bad, l2inv, l2dec⟩ :=
      ih (i + 1) (ordRecordStep cfg st i r) s1h (fun r2 h2 => hall r2 (by simp [h2]))
    rw [show ordLoop cfg i (r :: rest) st
        = ordLoop cfg (i + 1) rest (ordRecordStep cfg st i r) from rfl]
    refine ⟨l2h, by rw [l2u, s1u], by rw [l2cb, s1cb], ?_, ?_, ?_⟩
    · rw [l2bad, s1bad]
      rw [List.filter_cons]
      cases hb : ordIsBad cfg r <;> simp [hb] <;> omega
    · rw [l2inv, s1inv, ordInvokedIdx]
      simp [List.append_assoc]
    · intro j hj
      rcases l2dec j hj with hin | hgt
      · rcases s1dec with hd1 | hd2
        · rw [hd1] at hin
          exact Or.inl hin
        · rw [hd2] at hin
          rcases List.mem_append.mp hin with h1 | h2
          · exact Or.inl h1
          · have : j = i := by simpa using h2
            right
            simp [List.length_cons]
            omega
      · right
        simp [List.length_cons]
        omega

theorem ordLoop_append (cfg : Config) (a b : List KRecord) :
    ∀ (i : Nat) (st : OrdState),
    ordLoop cfg i (a ++ b) st = ordLoop cfg (i + a.length) b (ordLoop cfg i a st) := by
  induction a with
  | nil =>
    intro i st
    simp [ordLoop]
  | cons r as ih =>
    intro i st
    show ordLoop cfg (i + 1) (as ++ b) (ordRecordStep cfg st i r) = _
    rw [ih (i + 1)]
    have hidx : i + 1 + as.length = i + (r :: as).length := by
      simp [List.length_cons]
      omega
    rw [hidx]
    rfl

theorem ordInvokedIdx_bounds (cfg : Config) (recs : List KRecord) :
    ∀ i, ∀ j ∈ ordInvokedIdx cfg i recs, i ≤ j ∧ j < i + recs.length := by
  induction recs with
  | nil =>
    intro i j hj
    simp [ordInvokedIdx] at hj
  | cons r rest ih =>
    intro i j hj
    rw [ordInvokedIdx] at hj
    rcases List.mem_append.mp hj with h1 | h2
    · cases hb : ordIsInvoke cfg r
      · rw [hb] at h1
        simp at h1
      · rw [hb] at h1
        have : j = i := by simpa using h1
        subst this
        simp [List.length_cons]
    · have := ih (i + 1) j h2
      simp [List.length_cons]
      omega

/-- C3 (amended): for every batch whose records all avoid fatal outcomes
(bad messages, skipped records, or successfully completing handler
dispatches), the ordered driver drains the full batch (never halting
early and raising nothing), accumulates one entry per bad-message record
into the per-batch badMessages list, and invokes the handlers of the
remaining records in record order; the accumulated list is logged when
draining finishes, but the batch-level callback is NOT invoked — there is
no onBatchDone success signal on this path (the generator simply
returns), contrary to the original claim. -/
theorem ordered_bad_messages_drain_amended (cfg : Config) (records : List KRecord)
    (hall : ∀ r ∈ records, ordNonFatalRecord cfg r = true) :
    (processKinesisEventSync cfg (.valid records)).halted = false
    ∧ (processKinesisEventSync cfg (.valid records)).uncaught = none
    ∧ cbOf (processKinesisEventSync cfg (.valid records)).trace = []
    ∧ (processKinesisEventSync cfg (.valid records)).badMessages.length
        = (records.filter (fun r => ordIsBad cfg r)).length
    ∧ invokedOf (processKinesisEventSync cfg (.valid records)).trace
        = ordInvokedIdx cfg 0 records := by
  obtain ⟨h1, h2, h3, h4, h5, _⟩ := ordLoop_nonFatal cfg records 0 ordInit rfl hall
  refine ⟨h1, h2, h3, ?_, ?_⟩
  · have h4b : (processKinesisEventSync cfg (.valid records)).badMessages.length
        = ordInit.badMessages.length + (records.filter (fun r => ordIsBad cfg r)).length := h4
    simpa [ordInit] using h4b
  · have h5b : invokedOf (processKinesisEventSync cfg (.valid records)).trace
        = invokedOf ordInit.trace ++ ordInvokedIdx cfg 0 records := h5
    simpa [ordInit, invokedOf_nil] using h5b

/-- C3 counterexample: the five-record fixture batch (bad messages at
positions 2 and 4) is fully drained by the ordered driver with exactly
two bad-message entries and handler order 1,3,5 (indices 0,2,4), yet the
batch-level callback is never invoked — refuting the claim that the list
is reported together with onBatchDone being invoked with no error. -/
theorem ordered_no_success_signal_cex :
    (processKinesisEventSync cfgT (.valid batch5)).badMessages.length = 2
    ∧ invokedOf (processKinesisEventSync cfgT (.valid batch5)).trace = [0, 2, 4]
    ∧ (processKinesisEventSync cfgT (.valid batch5)).halted = false
    ∧ cbOf (processKinesisEventSync cfgT (.valid batch5)).trace = []
    ∧ cbOf (processKinesisEventSync cfgT (.valid batch5)).trace ≠ [CallbackCall.success] :=
  ⟨rfl, rfl, rfl, rfl, by decide⟩

/-- C3 witness: the amended theorem instantiated at the five-record
fixture batch. -/
theorem ordered_bad_messages_drain_amended_witness :
    (∀ r ∈ batch5, ordNonFatalRecord cfgT r = true)
    ∧ (processKinesisEventSync cfgT (.valid batch5)).badMessages.length
        = (batch5.filter (fun r => ordIsBad cfgT r)).length
    ∧ invokedOf (processKinesisEventSync cfgT (.valid batch5)).trace
        = ordInvokedIdx cfgT 0 batch5 :=
  ⟨by decide,
    (ordered_bad_messages_drain_amended cfgT batch5 (by decide)).2.2.2.1,
    (ordered_bad_messages_drain_amended cfgT batch5 (by decide)).2.2.2.2⟩

/-- C4: ordered driver abort on the first fatal handler error.  For every
batch pre ++ [rK] ++ rest in which every record of pre drains without a
fatal outcome and rK dispatches to a registered handler whose completion
carries an error (the claim describes it as a fatal non-bad-message
error; the code in fact aborts on ANY truthy handler error), the
completion closure raises the module-tagged error to the runtime: the
error is raised rather than returned through the batch-level callback
(which is never invoked), the payload decode of every record after
position k = pre.length never runs, no handler for any record after k is
ever invoked, while the handler of record k itself was invoked. -/
theorem ordered_fatal_aborts_batch (cfg : Config) (pre rest : List KRecord)
    (rK : KRecord) (eK : Event) (dsK : String) (sK : String)
    (hpre : ∀ r ∈ pre, ordNonFatalRecord cfg r = true)
    (hk1 : rK.kinesis = some (.eventParse eK))
    (hk2 : processEvent cfg (some (effEvent cfg rK eK)) = .ok (.invokeHandler dsK))
    (hk3 : rK.handler.err = some sK)
    (hk4 : nonFatalErr cfg (some sK) = false) :
    (processKinesisEventSync cfg (.valid (pre ++ rK :: rest))).uncaught
        = some (modulePre cfg.module ++ sK)
    ∧ cbOf (processKinesisEventSync cfg (.valid (pre ++ rK :: rest))).trace = []
    ∧ (∀ j ∈ (processKinesisEventSync cfg (.valid (pre ++ rK :: rest))).decoded,
        j ≤ pre.length)
    ∧ (∀ j ∈ invokedOf (processKinesisEventSync cfg (.valid (pre ++ rK :: rest))).trace,
        j ≤ pre.length)
    ∧ pre.length ∈ invokedOf (processKinesisEventSync cfg (.valid (pre ++ rK :: rest))).trace := by
  obtain ⟨p1, p2, p3, p4, p5, p6⟩ := ordLoop_nonFatal cfg pre 0 ordInit rfl hpre
  have hstep : ordRecordStep cfg (ordLoop cfg 0 pre ordInit) pre.length rK =
      { ordLoop cfg 0 pre ordInit with
        decoded := (ordLoop cfg 0 pre ordInit).decoded ++ [pre.length],
        trace := (ordLoop cfg 0 pre ordInit).trace ++ [.invokedHandler pre.length dsK],
        firstSeg := false,
        uncaught := some (modulePre cfg.module ++ sK),
        halted := true } := by
    simp [ordRecordStep, p1, hk1, hk2, hk3]
  have hres : processKinesisEventSync cfg (.valid (pre ++ rK :: rest)) =
      ordRecordStep cfg (ordLoop cfg 0 pre ordInit) pre.length rK := by
    show ordLoop cfg 0 (pre ++ rK :: rest) ordInit = _
    rw [ordLoop_append cfg pre (rK :: rest) 0 ordInit]
    rw [show (0 : Nat) + pre.length = pre.length from by omega]
    rw [show ordLoop cfg pre.length (rK :: rest) (ordLoop cfg 0 pre ordInit)
        = ordLoop cfg (pre.length + 1) rest
            (ordRecordStep cfg (ordLoop cfg 0 pre ordInit) pre.length rK) from rfl]
    exact ordLoop_halted cfg rest (pre.length + 1) _ (by rw [hstep])
  have q3 : cbOf (ordLoop cfg 0 pre ordInit).trace = [] := by
    simpa [ordInit, cbOf_nil] using p3
  have q5 : invokedOf (ordLoop cfg 0 pre ordInit).trace = ordInvokedIdx cfg 0 pre := by
    simpa [ordInit, invokedOf_nil] using p5
  have q6 : ∀ j ∈ (ordLoop cfg 0 pre ordInit).decoded, j < pre.length := by
    intro j hj
    rcases p6 j hj with hnil | hb
    · simp [ordInit] at hnil
    · omega
  rw [hres, hstep]
  refine ⟨rfl, ?_, ?_, ?_, ?_⟩
  · simp [cbOf_append, cbOf_invoked, q3]
  · intro j hj
    simp only [List.mem_append, List.mem_singleton] at hj
    rcases hj with hin | heq
    · exact Nat.le_of_lt (q6 j hin)
    · omega
  · intro j hj
    rw [invokedOf_append, q5] at hj
    simp only [invokedOf_invoked, List.mem_append, List.mem_singleton] at hj
    rcases hj with hin | heq
    · have hb := ordInvokedIdx_bounds cfg pre 0 j hin
      omega
    · omega
  · rw [invokedOf_append, q5]
    simp [invokedOf_invoked]

/-- C4 witness: a three-record batch (success, fatal handler error boom,
trailing record) aborts at position 1: boom is raised module-tagged, the
callback is untouched, and only records 0 and 1 are decoded or
dispatched. -/
theorem ordered_fatal_aborts_batch_witness :
    (∀ r ∈ [goodRec], ordNonFatalRecord cfgT r = true)
    ∧ nonFatalErr cfgT (some "boom") = false
    ∧ (processKinesisEventSync cfgT (.valid ([goodRec] ++ fatalRec :: [missRec]))).uncaught
        = some (modulePre "m" ++ "boom")
    ∧ (∀ j ∈ invokedOf (processKinesisEventSync cfgT
        (.valid ([goodRec] ++ fatalRec :: [missRec]))).trace, j ≤ 1) := by
  refine ⟨by decide, by decide, ?_, ?_⟩
  · exact (ordered_fatal_aborts_batch cfgT [goodRec] [missRec] fatalRec goodEvent "v/s/1"
      "boom" (by decide) rfl rfl rfl (by decide)).1
  · exact (ordered_fatal_aborts_batch cfgT [goodRec] [missRec] fatalRec goodEvent "v/s/1"
      "boom" (by decide) rfl rfl rfl (by decide)).2.2.2.1

/-- C1 (amended): terminal-outcome accounting per driver.  Concurrent
driver: a batch failing the shape check invokes the callback exactly once
with the no-records error; a nonempty well-formed batch in which every
record yields exactly one non-fatal completion invokes it exactly once
with no argument; a well-formed EMPTY batch invokes it zero times.
Ordered driver: a batch failing the shape check invokes the callback
exactly once with the no-records error, but a well-formed batch that
drains without fatal outcomes never invokes the callback at all — the
exactly-once terminal-outcome guarantee of the original claim fails
there (and on the empty concurrent batch). -/
theorem batch_callback_terminal_outcome_amended :
    (∀ (cfg : Config) (arrivals : List (Nat × Option String)),
      cbOf (processKinesisEvent cfg .invalidShape arrivals).trace
        = [.errStr (modulePre cfg.module ++ METHOD_PROCESS_KINESIS_EVENT
            ++ " - no records received.")])
    ∧ (∀ cfg : Config,
      cbOf (processKinesisEventSync cfg .invalidShape).trace
        = [.errStr (modulePre cfg.module ++ METHOD_PROCESS_KINESIS_EVENT
            ++ " - no records received.")])
    ∧ (∀ (cfg : Config) (records : List KRecord) (arrivals : List (Nat × Option String)),
      records ≠ [] → (∀ r ∈ records, completesNonFatal cfg r = true) →
      arrivals.Perm (concLoop cfg records.length 0 records concInit).pending →
      cbOf (processKinesisEvent cfg (.valid records) arrivals).trace = [.success])
    ∧ (∀ cfg : Config, cbOf (processKinesisEvent cfg (.valid []) []).trace = [])
    ∧ (∀ (cfg : Config) (records : List KRecord),
      (∀ r ∈ records, ordNonFatalRecord cfg r = true) →
      cbOf (processKinesisEventSync cfg (.valid records)).trace = []) := by
  refine ⟨fun cfg arrivals => rfl, fun cfg => rfl, ?_, fun cfg => rfl, ?_⟩
  · intro cfg records arrivals hne hall hperm
    obtain ⟨tr, htr, hcb, _⟩ := conc_success_main cfg records arrivals hne hall hperm
    simp [htr, cbOf_append, cbOf_cb, hcb]
  · intro cfg records hall
    exact (ordLoop_nonFatal cfg records 0 ordInit rfl hall).2.2.1

/-- C1 counterexample: a well-formed single-record batch whose record
validates, routes and completes successfully is accepted and fully
processed by the ordered driver (the handler is invoked, nothing is
raised, the generator finishes), yet the caller's callback receives ZERO
terminal outcomes — refuting the claim that the callback is invoked
exactly once for every accepted batch on either driver. -/
theorem ordered_success_no_callback_cex :
    invokedOf (processKinesisEventSync cfgT (.valid [goodRec])).trace = [0]
    ∧ (processKinesisEventSync cfgT (.valid [goodRec])).uncaught = none
    ∧ (processKinesisEventSync cfgT (.valid [goodRec])).halted = false
    ∧ cbOf (processKinesisEventSync cfgT (.valid [goodRec])).trace = []
    ∧ (cbOf (processKinesisEventSync cfgT (.valid [goodRec])).trace).length ≠ 1 :=
  ⟨rfl, rfl, rfl, rfl, by decide⟩

/-- C1 witness: the amended accounting at concrete inputs — a malformed
batch on the concurrent driver (one error outcome), a one-record
non-fatal batch on the concurrent driver (one success outcome), and the
same batch on the ordered driver (no outcome). -/
theorem batch_callback_terminal_outcome_amended_witness :
    cbOf (processKinesisEvent cfgT .invalidShape []).trace
      = [.errStr (modulePre "m" ++ METHOD_PROCESS_KINESIS_EVENT ++ " - no records received.")]
    ∧ (∀ r ∈ [missRec], completesNonFatal cfgT r = true)
    ∧ cbOf (processKinesisEvent cfgT (.valid [missRec]) []).trace = [.success]
    ∧ cbOf (processKinesisEventSync cfgT (.valid [missRec])).trace = [] := by
  refine ⟨batch_callback_terminal_outcome_amended.1 cfgT [], by decide, ?_, ?_⟩
  · exact batch_callback_terminal_outcome_amended.2.2.1 cfgT [missRec] []
      (by simp) (by decide) (by decide)
  · exact batch_callback_terminal_outcome_amended.2.2.2.2 cfgT [missRec] (by decide)

end KinesisHandlerModel
